import Mathlib

/-!
Shallow embedding of `scormxblock/scormxblock.py` (edly-io/edx_xblock_scorm):
the SCORM runtime state machine (`scorm_get_value`, `scorm_set_value`,
`publish_grade`, `get_completion_status`) and the manifest-parsing part of
`set_fields_xblock`.

Modelling conventions:
* Python floats are modelled exactly as rationals (`ℚ`); Python's
  `round(x, 2)` is modelled as decimal rounding half-to-even at two places.
* `float(str)` is modelled by `pyFloat`, a parser for plain decimal literals
  (optional sign, digits, optional fractional part, surrounding whitespace);
  the non-finite literals `inf`/`nan` and exponent forms are outside the model.
* The per-learner XBlock fields of user state scope form `SessionState`;
  settings-scoped fields and the module-level feature flag form `Config`.
* `self.runtime.publish(self, "grade", {...})` events and
  `self.emit_completion(...)` events are collected in lists, in emission order.
* A Python exception escaping the handler is `Except.error`; the fields keep
  their prior values (in the one branch that can raise, the raise happens
  before any assignment).
-/

/-- Per-learner SCORM session state: the `Scope.user_state` fields of the
XBlock (`lesson_status`, `success_status`, `lesson_score`, `data_scorm`).
The free-form dict is an insertion-ordered association list. -/
structure SessionState where
  lesson_status : String
  success_status : String
  lesson_score : ℚ
  data_scorm : List (String × String)
  deriving DecidableEq, Repr

/-- Settings-scoped configuration of a block plus the module-level
`ENABLE_PUBLISH_FAILED_SCORM_SCORE` feature flag. -/
structure Config where
  has_score : Bool
  weight : ℚ
  version_scorm : String
  enable_publish_failed_scorm_score : Bool
  deriving DecidableEq, Repr

/-- The default user state of a fresh session: field defaults from the
XBlock class body. -/
def initialState : SessionState :=
  { lesson_status := "not attempted"
    success_status := "unknown"
    lesson_score := 0
    data_scorm := [] }

/-- Default configuration: `weight = 1`, `has_score = True`,
`version_scorm = "SCORM_12"`, feature flag unset (defaults to `False`). -/
def cfg0 : Config :=
  { has_score := true
    weight := 1
    version_scorm := "SCORM_12"
    enable_publish_failed_scorm_score := false }

/-- A value crossing the JSON runtime API: `scorm_get_value` returns either a
string or a number. -/
inductive SValue where
  | str (s : String)
  | num (q : ℚ)
  deriving DecidableEq, Repr

/-- Python dict assignment `d[name] = value`: replace in place, else append. -/
def dictInsert (k v : String) : List (String × String) → List (String × String)
  | [] => [(k, v)]
  | (k', v') :: rest =>
    if k' = k then (k, v) :: rest else (k', v') :: dictInsert k v rest

/-- Python dict read `d.get(name, "")`. -/
def dictGet (k : String) : List (String × String) → String
  | [] => ""
  | (k', v') :: rest => if k' = k then v' else dictGet k rest

/-- Value of a list of decimal digits. -/
def digitsVal (cs : List Char) : ℕ :=
  cs.foldl (fun a c => a * 10 + (c.toNat - 48)) 0

/-- Model of Python `float(value)` on a string: optional surrounding
whitespace, optional sign, then digits with an optional fractional part
(`"87"`, `"-2.5"`, `".5"`, `"3."`); `none` when `float` would raise
`ValueError`. Exponent forms and `inf`/`nan` literals are outside the model. -/
def pyFloat (s : String) : Option ℚ :=
  let cs := ((s.data.dropWhile Char.isWhitespace).reverse.dropWhile
    Char.isWhitespace).reverse
  let signed : ℚ × List Char :=
    match cs with
    | '-' :: r => (-1, r)
    | '+' :: r => (1, r)
    | r => (1, r)
  let intPart := signed.2.takeWhile Char.isDigit
  let rest := signed.2.dropWhile Char.isDigit
  match rest with
  | [] =>
    if intPart.isEmpty then none
    else some (signed.1 * (digitsVal intPart : ℚ))
  | '.' :: frac =>
    if frac.all Char.isDigit ∧ ¬(intPart.isEmpty ∧ frac.isEmpty) then
      some (signed.1 *
        ((digitsVal intPart : ℚ) + (digitsVal frac : ℚ) / ((10 : ℚ) ^ frac.length)))
    else none
  | _ => none

/-- Round a rational to the nearest integer, ties to the even integer
(Python's rounding mode). -/
def roundHalfEven (q : ℚ) : ℤ :=
  if q - (⌊q⌋ : ℚ) < 1 / 2 then ⌊q⌋
  else if 1 / 2 < q - (⌊q⌋ : ℚ) then ⌊q⌋ + 1
  else if ⌊q⌋ % 2 = 0 then ⌊q⌋ else ⌊q⌋ + 1

/-- Model of Python `round(q, 2)`: round half-to-even at two decimal places. -/
def round2 (q : ℚ) : ℚ := (roundHalfEven (q * 100) : ℚ) / 100

/-- `publish_grade` (scormxblock.py lines 331-353): the single grade event
`(value, max_value)` handed to `self.runtime.publish(self, "grade", ...)`. -/
def publish_grade (cfg : Config) (st : SessionState) : ℚ × ℚ :=
  if ¬cfg.enable_publish_failed_scorm_score = true ∧
      (st.lesson_status = "failed" ∨
        (cfg.version_scorm = "SCORM_2004" ∧
          (st.success_status = "failed" ∨ st.success_status = "unknown"))) then
    (0, cfg.weight)
  else
    (st.lesson_score, cfg.weight)

/-- `get_completion_status` (lines 439-443). -/
def get_completion_status (cfg : Config) (st : SessionState) : String :=
  if cfg.version_scorm = "SCORM_2004" ∧ st.success_status ≠ "unknown" then
    st.success_status
  else
    st.lesson_status

/-- `scorm_get_value` (lines 281-291): pure read of session state. -/
def scorm_get_value (st : SessionState) (name : String) : SValue :=
  if name = "cmi.core.lesson_status" ∨ name = "cmi.completion_status" then
    .str st.lesson_status
  else if name = "cmi.success_status" then
    .str st.success_status
  else if name = "cmi.core.score.raw" ∨ name = "cmi.score.raw" then
    .num (st.lesson_score * 100)
  else
    .str (dictGet name st.data_scorm)

/-- The JSON response context built by `scorm_set_value`:
`{"result": "success", "completion_status": ..., ["lesson_score": ...]}`. -/
structure SetResponse where
  result : String
  completion_status : String
  lesson_score : Option ℚ
  deriving DecidableEq, Repr

/-- Outcome of one successful `scorm_set_value` call: new state, grade events
published during the call, completion events emitted, and the JSON context. -/
structure SetResult where
  state : SessionState
  grades : List (ℚ × ℚ)
  completions : List ℚ
  response : SetResponse
  deriving DecidableEq, Repr

/-- Tail of `scorm_set_value` (lines 322-329): recompute completion status,
emit a completion event when it is `passed`/`failed`/`completed`, and build
the response. -/
def finishSet (cfg : Config) (st : SessionState) (grades : List (ℚ × ℚ))
    (ls : Option ℚ) : SetResult :=
  let cs := get_completion_status cfg st
  { state := st
    grades := grades
    completions :=
      if cs = "passed" ∨ cs = "failed" ∨ cs = "completed" then [(1 : ℚ)] else []
    response := { result := "success", completion_status := cs, lesson_score := ls } }

/-- `scorm_set_value` (lines 293-329). `Except.error` models the
`ValueError` raised by `float(...)` on a non-numeric raw-score value; that
raise happens before any field assignment in its branch. -/
def scorm_set_value (cfg : Config) (st : SessionState) (name value : String) :
    Except String SetResult :=
  if name = "cmi.core.lesson_status" ∨ name = "cmi.completion_status" then
    let st1 := { st with lesson_status := value }
    if cfg.has_score = true ∧
        (value = "completed" ∨ value = "failed" ∨ value = "passed") then
      .ok (finishSet cfg st1 [publish_grade cfg st1] (some st1.lesson_score))
    else
      .ok (finishSet cfg st1 [] none)
  else if name = "cmi.success_status" then
    let st1 := { st with success_status := value }
    if cfg.has_score = true then
      let st2 := if st1.success_status = "unknown" then { st1 with lesson_score := 0 } else st1
      .ok (finishSet cfg st2 [publish_grade cfg st2] (some st2.lesson_score))
    else
      .ok (finishSet cfg st1 [] none)
  else if (name = "cmi.core.score.raw" ∨ name = "cmi.score.raw") ∧
      cfg.has_score = true then
    match pyFloat value with
    | none => .error "could not convert string to float"
    | some q =>
      let st1 := { st with lesson_score := round2 (q / 100) }
      .ok (finishSet cfg st1 [publish_grade cfg st1] (some st1.lesson_score))
  else
    .ok (finishSet cfg { st with data_scorm := dictInsert name value st.data_scorm } [] none)

/-- The settings fields read and written by `set_fields_xblock`. -/
structure FieldsState where
  path_index_page : Option String
  version_scorm : String
  deriving DecidableEq, Repr

/-- A parsed `imsmanifest.xml`, as far as `set_fields_xblock` looks at it:
`resource = some href` is a first `resources/resource` element whose
entry-point attribute is `href` (an absent `href` attribute reads as `none`,
the `None` that `Element.get` returns); `schemaversion = some t` is a
`metadata/schemaversion` element with text `t`.  Namespace qualification
only affects how the elements are located, not what is done with them, so
the model starts from the located elements. -/
structure Manifest where
  resource : Option (Option String)
  schemaversion : Option String
  deriving DecidableEq, Repr

/-- Python `re.match("^1.2$", t)` succeeding: the dot matches any single
character other than a newline, and `$` also matches just before a newline
that ends the string. -/
def regexMatch12 (t : String) : Bool :=
  match t.data with
  | ['1', c, '2'] => c ≠ '\n'
  | ['1', c, '2', '\n'] => c ≠ '\n'
  | _ => false

/-- Manifest-parsing part of `set_fields_xblock` (lines 388-427): the
default entry point is written first; on `IOError` (manifest absent) the
`except` clause passes, leaving `version_scorm` untouched; otherwise the
located elements overwrite the fields. -/
def set_fields_xblock (prior : FieldsState) (m : Option Manifest) : FieldsState :=
  let afterDefault := { prior with path_index_page := some "index.html" }
  match m with
  | none => afterDefault
  | some man =>
    let pip :=
      match man.resource with
      | none => afterDefault.path_index_page
      | some href => href
    let ver :=
      match man.schemaversion with
      | none => "SCORM_12"
      | some t => if regexMatch12 t then "SCORM_12" else "SCORM_2004"
    { path_index_page := pip, version_scorm := ver }

/-- One set call as the host executes it: a raised exception leaves the
session fields untouched and publishes nothing. -/
def applyCall (cfg : Config) (st : SessionState) (c : String × String) :
    SessionState × List (ℚ × ℚ) :=
  match scorm_set_value cfg st c.1 c.2 with
  | .ok r => (r.state, r.grades)
  | .error _ => (st, [])

/-- Run a sequence of set calls from a state, collecting every grade event. -/
def runCalls (cfg : Config) (st : SessionState) :
    List (String × String) → SessionState × List (ℚ × ℚ)
  | [] => (st, [])
  | c :: cs =>
    let step := applyCall cfg st c
    let rest := runCalls cfg step.1 cs
    (rest.1, step.2 ++ rest.2)

/-- The two names of the raw-score data-model element. -/
def rawKey (n : String) : Prop :=
  n = "cmi.core.score.raw" ∨ n = "cmi.score.raw"

/-- A set call whose raw-score value, when it parses at all, is a percentage
in the external wire range 0-100. -/
def rawOk (c : String × String) : Prop :=
  rawKey c.1 → ∀ q, pyFloat c.2 = some q → 0 ≤ q ∧ q ≤ 100

/-- The internal raw-score invariant of §3: `lesson_score` normalized to
`[0, 1]`. -/
def scoreInv (st : SessionState) : Prop :=
  0 ≤ st.lesson_score ∧ st.lesson_score ≤ 1

/-- The SCORM lesson-status vocabulary of the spec. -/
def lessonVocab : List String :=
  ["not attempted", "incomplete", "completed", "passed", "failed"]

/-- The SCORM success-status vocabulary of the spec. -/
def successVocab : List String := ["unknown", "passed", "failed"]

/-- Both status fields hold vocabulary values. -/
def vocabInv (st : SessionState) : Prop :=
  st.lesson_status ∈ lessonVocab ∧ st.success_status ∈ successVocab

/-- A set call that supplies a vocabulary value whenever it targets a status
key. -/
def vocabCallOk (c : String × String) : Prop :=
  ((c.1 = "cmi.core.lesson_status" ∨ c.1 = "cmi.completion_status") →
    c.2 ∈ lessonVocab) ∧
  (c.1 = "cmi.success_status" → c.2 ∈ successVocab)

instance (c : String × String) : Decidable (vocabCallOk c) := by
  unfold vocabCallOk
  infer_instance

/-- A default `FieldsState`: the field defaults of a fresh block
(`path_index_page` unset defaults are irrelevant once `set_fields_xblock`
has run; `version_scorm` defaults to `"SCORM_12"`). -/
def fs0 : FieldsState :=
  { path_index_page := some "index.html", version_scorm := "SCORM_12" }

/-- Configuration of an unscored block. -/
def cfgNoScore : Config := { cfg0 with has_score := false }

/-- A session holding a nonzero stored raw score. -/
def stHalf : SessionState := { initialState with lesson_score := 1 / 2 }

/-- A scored session state used to exercise the grade clamp. -/
def c4st : SessionState := { initialState with lesson_score := 9 / 10 }

/-- Result of `scorm_set_value cfg0 c4st "cmi.core.lesson_status" "failed"`. -/
def r4 : SetResult :=
  { state := { lesson_status := "failed", success_status := "unknown",
               lesson_score := 9 / 10, data_scorm := [] }
    grades := [(0, 1)]
    completions := [(1 : ℚ)]
    response := { result := "success", completion_status := "failed",
                  lesson_score := some (9 / 10) } }

/-- Result of `scorm_set_value cfg0 initialState "cmi.core.lesson_status"
"completed"`. -/
def r6 : SetResult :=
  { state := { lesson_status := "completed", success_status := "unknown",
               lesson_score := 0, data_scorm := [] }
    grades := [(0, 1)]
    completions := [(1 : ℚ)]
    response := { result := "success", completion_status := "completed",
                  lesson_score := some 0 } }

/-! ### Helper lemmas -/

theorem roundHalfEven_nonneg (x : ℚ) (hx : 0 ≤ x) : 0 ≤ roundHalfEven x := by
  have hf : (0 : ℤ) ≤ ⌊x⌋ := Int.le_floor.mpr (by exact_mod_cast hx)
  unfold roundHalfEven
  split_ifs <;> omega

theorem roundHalfEven_le_int (x : ℚ) (n : ℤ) (hx : x ≤ (n : ℚ)) :
    roundHalfEven x ≤ n := by
  have hfl : ⌊x⌋ ≤ n := by
    have := Int.floor_le_floor hx
    simpa using this
  have hle : (⌊x⌋ : ℚ) ≤ x := Int.floor_le x
  unfold roundHalfEven
  split_ifs with h1 h2 h3
  · exact hfl
  · rcases lt_or_eq_of_le hfl with hlt | heq
    · omega
    · exfalso
      have hxn : x = (n : ℚ) := le_antisymm hx (by rw [heq] at hle; exact hle)
      have h0 : x - (⌊x⌋ : ℚ) = 0 := by rw [hxn]; simp
      linarith
  · exact hfl
  · rcases lt_or_eq_of_le hfl with hlt | heq
    · omega
    · exfalso
      have hxn : x = (n : ℚ) := le_antisymm hx (by rw [heq] at hle; exact hle)
      have h0 : x - (⌊x⌋ : ℚ) = 0 := by rw [hxn]; simp
      have hfr : x - (⌊x⌋ : ℚ) = 1 / 2 := le_antisymm (not_lt.mp h2) (not_lt.mp h1)
      rw [h0] at hfr
      norm_num at hfr

theorem round2_mem (q : ℚ) (h0 : 0 ≤ q) (h1 : q ≤ 1) :
    0 ≤ round2 q ∧ round2 q ≤ 1 := by
  have hlo : 0 ≤ roundHalfEven (q * 100) :=
    roundHalfEven_nonneg _ (by linarith)
  have hhi : roundHalfEven (q * 100) ≤ 100 :=
    roundHalfEven_le_int _ 100 (by push_cast; linarith)
  unfold round2
  constructor
  · exact div_nonneg (by exact_mod_cast hlo) (by norm_num)
  · exact (div_le_one (by norm_num)).mpr (by exact_mod_cast hhi)

theorem publish_grade_bounds (cfg : Config) (st : SessionState)
    (hw : 1 ≤ cfg.weight) (h0 : 0 ≤ st.lesson_score)
    (h1 : st.lesson_score ≤ 1) :
    0 ≤ (publish_grade cfg st).1 ∧ (publish_grade cfg st).1 ≤ cfg.weight := by
  unfold publish_grade
  split_ifs
  · exact ⟨le_refl 0, by simpa using (show (0 : ℚ) ≤ cfg.weight by linarith)⟩
  · exact ⟨h0, le_trans h1 hw⟩

theorem set_ok_shape (cfg : Config) (st : SessionState) (n v : String)
    (r : SetResult) (h : scorm_set_value cfg st n v = Except.ok r) :
    (r.grades = [] ∨ r.grades = [publish_grade cfg r.state]) ∧
    r.response.completion_status = get_completion_status cfg r.state ∧
    r.completions =
      (if r.response.completion_status = "passed" ∨
          r.response.completion_status = "failed" ∨
          r.response.completion_status = "completed" then [(1 : ℚ)] else []) := by
  unfold scorm_set_value at h
  split at h
  · split at h <;> (injection h with h; subst h; exact ⟨by simp [finishSet], rfl, rfl⟩)
  · split at h
    · split at h <;> (injection h with h; subst h; exact ⟨by simp [finishSet], rfl, rfl⟩)
    · split at h
      · split at h
        · exact absurd h (by simp)
        · injection h with h; subst h; exact ⟨by simp [finishSet], rfl, rfl⟩
      · injection h with h; subst h; exact ⟨by simp [finishSet], rfl, rfl⟩

/-! ### C4, C5, C6 -/

/-- C4: with `ENABLE_PUBLISH_FAILED_SCORM_SCORE` off, every grade event a set
call publishes has value `0` when the session is `lesson_status = "failed"`
or (`SCORM_2004` and `success_status` is `"failed"` or `"unknown"`),
regardless of the stored raw score, and value `lesson_score` otherwise; the
max value is always `weight`. -/
theorem C4_grade_clamp (cfg : Config) (st : SessionState) (n v : String)
    (r : SetResult) (hf : cfg.enable_publish_failed_scorm_score = false)
    (h : scorm_set_value cfg st n v = Except.ok r) :
    ∀ g ∈ r.grades,
      g = (if r.state.lesson_status = "failed" ∨
              (cfg.version_scorm = "SCORM_2004" ∧
                (r.state.success_status = "failed" ∨
                 r.state.success_status = "unknown"))
           then (0 : ℚ) else r.state.lesson_score, cfg.weight) := by
  intro g hg
  rcases (set_ok_shape cfg st n v r h).1 with hnil | hone
  · rw [hnil] at hg
    exact absurd hg (List.not_mem_nil g)
  · rw [hone, List.mem_singleton] at hg
    subst hg
    simp only [publish_grade, hf]
    split_ifs <;> simp_all

/-- C4 witness: setting `lesson_status = "failed"` on a scored session whose
stored score is `9/10` publishes the clamped grade `(0, 1)`. -/
theorem C4_witness :
    r4.grades = [((0 : ℚ), (1 : ℚ))] ∧
    ((0 : ℚ), (1 : ℚ)) =
      (if r4.state.lesson_status = "failed" ∨
          (cfg0.version_scorm = "SCORM_2004" ∧
            (r4.state.success_status = "failed" ∨
             r4.state.success_status = "unknown"))
       then (0 : ℚ) else r4.state.lesson_score, cfg0.weight) :=
  ⟨rfl, C4_grade_clamp cfg0 c4st "cmi.core.lesson_status" "failed" r4 rfl rfl
      ((0 : ℚ), (1 : ℚ)) (by simp [r4])⟩

/-- C5: a set of `cmi.success_status` with `has_score` true stores the value;
when the new value is `"unknown"` the raw score is forced to 0 before the
grade event is published (even over a nonzero prior score); exactly one grade
event is published, computed on the updated state. -/
theorem C5_success_status_set (cfg : Config) (st : SessionState) (v : String)
    (hs : cfg.has_score = true) :
    scorm_set_value cfg st "cmi.success_status" v =
      Except.ok (finishSet cfg
        (if v = "unknown"
         then { st with success_status := v, lesson_score := 0 }
         else { st with success_status := v })
        [publish_grade cfg
          (if v = "unknown"
           then { st with success_status := v, lesson_score := 0 }
           else { st with success_status := v })]
        (some (if v = "unknown" then 0 else st.lesson_score))) := by
  by_cases hv : v = "unknown" <;>
    simp only [scorm_set_value, hv, hs] <;>
    simp

/-- C5 witness: on a session with stored score `1/2`, setting
`success_status = "unknown"` zeroes the score before publishing. -/
theorem C5_witness :
    scorm_set_value cfg0 stHalf "cmi.success_status" "unknown" =
      Except.ok (finishSet cfg0
        { stHalf with success_status := "unknown", lesson_score := 0 }
        [publish_grade cfg0
          { stHalf with success_status := "unknown", lesson_score := 0 }]
        (some 0)) ∧
    stHalf.lesson_score ≠ 0 := by
  have h := C5_success_status_set cfg0 stHalf "unknown" rfl
  exact ⟨by simpa using h, by norm_num [stHalf, initialState]⟩

/-- C6: after every successful set call the response's `completion_status` is
`success_status` when the package is `SCORM_2004` with `success_status ≠
"unknown"` and `lesson_status` otherwise, and a completion event of value 1.0
is emitted exactly when that status is `passed`, `failed` or `completed`. -/
theorem C6_completion_status (cfg : Config) (st : SessionState) (n v : String)
    (r : SetResult) (h : scorm_set_value cfg st n v = Except.ok r) :
    r.response.completion_status =
      (if cfg.version_scorm = "SCORM_2004" ∧ r.state.success_status ≠ "unknown"
       then r.state.success_status else r.state.lesson_status) ∧
    r.completions =
      (if r.response.completion_status = "passed" ∨
          r.response.completion_status = "failed" ∨
          r.response.completion_status = "completed"
       then [(1 : ℚ)] else []) := by
  obtain ⟨-, h2, h3⟩ := set_ok_shape cfg st n v r h
  exact ⟨h2.trans rfl, h3⟩

/-- C6 witness: setting `lesson_status = "completed"` yields response
completion status `"completed"` and a completion event of value 1.0. -/
theorem C6_witness :
    r6.response.completion_status = "completed" ∧ r6.completions = [(1 : ℚ)] := by
  have h := C6_completion_status cfg0 initialState "cmi.core.lesson_status" "completed" r6 rfl
  refine ⟨h.1.trans ?_, h.2.trans ?_⟩ <;> decide

/-! ### C2 (corrected), C8, C10 -/

/-- C2 counterexample: with `has_score` false, a set of the raw-score key is
not a no-op — the free-form mapping changes (the key is stored verbatim). -/
theorem C2_counterexample :
    (applyCall cfgNoScore initialState ("cmi.core.score.raw", "87")).1.data_scorm
      ≠ initialState.data_scorm := by decide

/-- C2 amended: with `has_score` false, a set of a raw-score key falls into
the catch-all branch: the value is stored verbatim into the free-form
mapping, `lesson_status`/`success_status`/`lesson_score` keep their values,
and no grade event is published. -/
theorem C2_raw_score_unscored (cfg : Config) (st : SessionState) (n v : String)
    (hs : cfg.has_score = false)
    (hn : n = "cmi.core.score.raw" ∨ n = "cmi.score.raw") :
    scorm_set_value cfg st n v =
      Except.ok (finishSet cfg
        { st with data_scorm := dictInsert n v st.data_scorm } [] none) := by
  rcases hn with rfl | rfl <;> simp [scorm_set_value, hs]

/-- C2 witness: concrete unscored raw-score set stores into the mapping and
publishes nothing. -/
theorem C2_witness :
    scorm_set_value cfgNoScore initialState "cmi.score.raw" "87" =
      Except.ok (finishSet cfgNoScore
        { initialState with
            data_scorm := dictInsert "cmi.score.raw" "87" initialState.data_scorm }
        [] none) :=
  C2_raw_score_unscored cfgNoScore initialState "cmi.score.raw" "87" rfl (Or.inr rfl)

/-- C8: with `has_score` true, a raw-score set whose value parses as `q`
stores `round(q/100, 2)`, and a subsequent raw-score get returns that stored
score times 100; at `q = 87` the round trip returns exactly 87. -/
theorem C8_roundtrip (cfg : Config) (st : SessionState) (n v : String) (q : ℚ)
    (hs : cfg.has_score = true)
    (hn : n = "cmi.core.score.raw" ∨ n = "cmi.score.raw")
    (hp : pyFloat v = some q) :
    scorm_set_value cfg st n v =
      Except.ok (finishSet cfg { st with lesson_score := round2 (q / 100) }
        [publish_grade cfg { st with lesson_score := round2 (q / 100) }]
        (some (round2 (q / 100)))) ∧
    scorm_get_value { st with lesson_score := round2 (q / 100) } "cmi.score.raw"
      = SValue.num (round2 (q / 100) * 100) ∧
    scorm_get_value { st with lesson_score := round2 (q / 100) } "cmi.core.score.raw"
      = SValue.num (round2 (q / 100) * 100) ∧
    (q = 87 → round2 (q / 100) * 100 = 87) := by
  refine ⟨?_, by simp [scorm_get_value], by simp [scorm_get_value], ?_⟩
  · rcases hn with rfl | rfl <;> simp [scorm_set_value, hs, hp]
  · rintro rfl
    norm_num [round2, roundHalfEven]

/-- C8 witness: `set raw score = "87"` then `get raw score` returns the
number 87 exactly. -/
theorem C8_witness :
    scorm_get_value { initialState with lesson_score := round2 ((87 : ℚ) / 100) }
      "cmi.score.raw" = SValue.num 87 := by
  have h := C8_roundtrip cfg0 initialState "cmi.core.score.raw" "87" 87 rfl
    (Or.inl rfl) (by with_unfolding_all decide)
  exact h.2.1.trans (by rw [h.2.2.2 rfl])

/-- C10: with `has_score` true, a raw-score set whose value does not parse as
a float fails with an error, and the failed call leaves the session state
unchanged and publishes no grade event. -/
theorem C10_parse_failure (cfg : Config) (st : SessionState) (n v : String)
    (hs : cfg.has_score = true)
    (hn : n = "cmi.core.score.raw" ∨ n = "cmi.score.raw")
    (hp : pyFloat v = none) :
    scorm_set_value cfg st n v = Except.error "could not convert string to float" ∧
    applyCall cfg st (n, v) = (st, []) := by
  have herr : scorm_set_value cfg st n v
      = Except.error "could not convert string to float" := by
    rcases hn with rfl | rfl <;> simp [scorm_set_value, hs, hp]
  exact ⟨herr, by simp [applyCall, herr]⟩

/-- C10 witness: setting the raw score to the non-numeric string `"abc"`
errors and changes nothing. -/
theorem C10_witness :
    scorm_set_value cfg0 initialState "cmi.core.score.raw" "abc"
      = Except.error "could not convert string to float" ∧
    applyCall cfg0 initialState ("cmi.core.score.raw", "abc")
      = (initialState, []) :=
  C10_parse_failure cfg0 initialState "cmi.core.score.raw" "abc" rfl
    (Or.inl rfl) (by with_unfolding_all decide)

/-! ### C1 (corrected) and C9: manifest parsing -/

/-- C1 counterexample: `"1x2"` is a non-empty schemaversion text different
from `"1.2"`, yet the code classifies it `SCORM_12` (the dot in
`re.match("^1.2$", ...)` is an unescaped wildcard); and with the manifest
absent, a block previously at `SCORM_2004` keeps `SCORM_2004` rather than
falling back to `SCORM_12`. -/
theorem C1_counterexample :
    ("1x2" ≠ "1.2" ∧ "1x2" ≠ "" ∧
      (set_fields_xblock fs0
        (some { resource := none, schemaversion := some "1x2" })).version_scorm
        = "SCORM_12") ∧
    (set_fields_xblock
        { path_index_page := some "index.html", version_scorm := "SCORM_2004" }
        none).version_scorm = "SCORM_2004" := by decide

/-- C1 amended: with the manifest present and a schemaversion element with
text `t`, the detected version is `SCORM_12` exactly when `t` matches the
regex `^1.2$` (dot = any character except newline, `$` tolerating one
trailing newline) and `SCORM_2004` otherwise; with the manifest absent the
entry point falls back to `"index.html"` while `version_scorm` keeps its
prior value (`SCORM_12` only on a fresh block). -/
theorem C1_schema_detection (prior : FieldsState) (m : Option Manifest) :
    (∀ man t, m = some man → man.schemaversion = some t →
      (set_fields_xblock prior m).version_scorm =
        (if regexMatch12 t then "SCORM_12" else "SCORM_2004")) ∧
    (m = none →
      (set_fields_xblock prior m).path_index_page = some "index.html" ∧
      (set_fields_xblock prior m).version_scorm = prior.version_scorm) := by
  constructor
  · rintro ⟨res, sv⟩ t rfl ht
    cases ht
    rfl
  · rintro rfl
    exact ⟨rfl, rfl⟩

/-- C1 witness: schemaversion text `"2004"` does not match the pattern and
is classified `SCORM_2004`. -/
theorem C1_witness :
    regexMatch12 "2004" = false ∧
    (set_fields_xblock fs0
      (some { resource := none, schemaversion := some "2004" })).version_scorm
      = "SCORM_2004" :=
  ⟨rfl,
    ((C1_schema_detection fs0
        (some { resource := none, schemaversion := some "2004" })).1
      { resource := none, schemaversion := some "2004" } "2004" rfl rfl).trans
      (by decide)⟩

/-- C9: when a `resources/resource` element exists but carries no href
attribute, `set_fields_xblock` overwrites the default entry point with the
`None` returned by `resource.get("href")` instead of keeping
`"index.html"` — the code contradicts the documented fallback. -/
theorem C9_missing_href :
    (set_fields_xblock fs0
      (some { resource := some none, schemaversion := some "1.2" })).path_index_page
      = none ∧
    (none : Option String) ≠ some "index.html" := by decide

/-! ### C7 (corrected): status vocabulary -/

theorem set_vocab (cfg : Config) (st : SessionState) (n v : String)
    (r : SetResult) (h : scorm_set_value cfg st n v = Except.ok r)
    (hinv : vocabInv st) (hok : vocabCallOk (n, v)) : vocabInv r.state := by
  unfold scorm_set_value at h
  split at h
  next hn =>
    split at h <;> (injection h with h; subst h; exact ⟨hok.1 hn, hinv.2⟩)
  next =>
    split at h
    next hn =>
      have hv : v ∈ successVocab := hok.2 hn
      split at h
      · injection h with h; subst h
        by_cases hu : v = "unknown" <;>
          simp only [finishSet, hu, if_true, if_false] <;>
          exact ⟨hinv.1, by simpa [hu] using hv⟩
      · injection h with h; subst h
        exact ⟨hinv.1, hv⟩
    next =>
      split at h
      · split at h
        · exact absurd h (by simp)
        · injection h with h; subst h
          exact hinv
      · injection h with h; subst h
        exact hinv

theorem applyCall_vocab (cfg : Config) (st : SessionState) (c : String × String)
    (hinv : vocabInv st) (hok : vocabCallOk c) :
    vocabInv (applyCall cfg st c).1 := by
  rcases c with ⟨n, v⟩
  cases h : scorm_set_value cfg st n v with
  | error e => simpa [applyCall, h] using hinv
  | ok r => simpa [applyCall, h] using set_vocab cfg st n v r h hinv hok

theorem runCalls_vocab (cfg : Config) :
    ∀ (calls : List (String × String)) (st : SessionState), vocabInv st →
      (∀ c ∈ calls, vocabCallOk c) → vocabInv (runCalls cfg st calls).1 := by
  intro calls
  induction calls with
  | nil => intro st hinv _; exact hinv
  | cons c cs ih =>
    intro st hinv hall
    simp only [runCalls]
    exact ih _ (applyCall_vocab cfg st c hinv (hall c (by simp)))
      (fun c' hc' => hall c' (by simp [hc']))

/-- C7 counterexample: the code stores arbitrary strings into the status
fields — one set call drives `lesson_status` to `"banana"`, outside the
SCORM vocabulary. -/
theorem C7_counterexample :
    (runCalls cfg0 initialState
      [("cmi.core.lesson_status", "banana")]).1.lesson_status = "banana" ∧
    "banana" ∉ lessonVocab := by
  with_unfolding_all decide

/-- C7 amended: the status fields stay inside the SCORM vocabulary for every
sequence of set calls that only supplies vocabulary values on the status
keys (the code itself never validates them). -/
theorem C7_vocab_invariant (cfg : Config) (calls : List (String × String))
    (hall : ∀ c ∈ calls, vocabCallOk c) :
    vocabInv (runCalls cfg initialState calls).1 :=
  runCalls_vocab cfg calls initialState (by constructor <;> decide) hall

/-- C7 witness: a vocabulary-respecting session keeps both statuses in the
vocabulary. -/
theorem C7_witness :
    vocabInv (runCalls cfg0 initialState
      [("cmi.core.lesson_status", "completed"),
       ("cmi.success_status", "passed")]).1 :=
  C7_vocab_invariant cfg0 _ (by decide)

/-! ### C3 (corrected): grade bounds -/

theorem set_score_bounds (cfg : Config) (st : SessionState) (n v : String)
    (r : SetResult) (h : scorm_set_value cfg st n v = Except.ok r)
    (hw : 1 ≤ cfg.weight) (hinv : scoreInv st) (hraw : rawOk (n, v)) :
    scoreInv r.state ∧ ∀ g ∈ r.grades, 0 ≤ g.1 ∧ g.1 ≤ cfg.weight := by
  unfold scorm_set_value at h
  dsimp only at h
  split at h
  next =>
    split at h
    · injection h with h; subst h
      refine ⟨⟨hinv.1, hinv.2⟩, ?_⟩
      intro g hg
      simp only [finishSet, List.mem_singleton] at hg
      subst hg
      exact publish_grade_bounds cfg _ hw hinv.1 hinv.2
    · injection h with h; subst h
      exact ⟨⟨hinv.1, hinv.2⟩, by simp [finishSet]⟩
  next =>
    split at h
    next =>
      split at h
      · split at h
        next =>
          injection h with h; subst h
          refine ⟨⟨le_refl 0, by norm_num [finishSet]⟩, ?_⟩
          intro g hg
          simp only [finishSet, List.mem_singleton] at hg
          subst hg
          exact publish_grade_bounds cfg _ hw (le_refl 0) (by norm_num)
        next =>
          injection h with h; subst h
          refine ⟨⟨hinv.1, hinv.2⟩, ?_⟩
          intro g hg
          simp only [finishSet, List.mem_singleton] at hg
          subst hg
          exact publish_grade_bounds cfg _ hw hinv.1 hinv.2
      · injection h with h; subst h
        exact ⟨⟨hinv.1, hinv.2⟩, by simp [finishSet]⟩
    next =>
      split at h
      next hcond =>
        split at h
        next hpf => exact absurd h (by simp)
        next q hpf =>
          injection h with h; subst h
          have hq := hraw hcond.1 q hpf
          have hr2 := round2_mem (q / 100)
            (div_nonneg hq.1 (by norm_num))
            ((div_le_one (by norm_num)).mpr (by linarith [hq.2]))
          refine ⟨⟨hr2.1, hr2.2⟩, ?_⟩
          intro g hg
          simp only [finishSet, List.mem_singleton] at hg
          subst hg
          exact publish_grade_bounds cfg _ hw hr2.1 hr2.2
      · injection h with h; subst h
        exact ⟨⟨hinv.1, hinv.2⟩, by simp [finishSet]⟩

theorem applyCall_score_bounds (cfg : Config) (st : SessionState)
    (c : String × String) (hw : 1 ≤ cfg.weight) (hinv : scoreInv st)
    (hraw : rawOk c) :
    scoreInv (applyCall cfg st c).1 ∧
      ∀ g ∈ (applyCall cfg st c).2, 0 ≤ g.1 ∧ g.1 ≤ cfg.weight := by
  rcases c with ⟨n, v⟩
  cases h : scorm_set_value cfg st n v with
  | error e =>
    refine ⟨?_, ?_⟩
    · simpa [applyCall, h] using hinv
    · simp [applyCall, h]
  | ok r => simpa [applyCall, h] using set_score_bounds cfg st n v r h hw hinv hraw

theorem runCalls_score_bounds (cfg : Config) (hw : 1 ≤ cfg.weight) :
    ∀ (calls : List (String × String)) (st : SessionState), scoreInv st →
      (∀ c ∈ calls, rawOk c) →
      scoreInv (runCalls cfg st calls).1 ∧
        ∀ g ∈ (runCalls cfg st calls).2, 0 ≤ g.1 ∧ g.1 ≤ cfg.weight := by
  intro calls
  induction calls with
  | nil => intro st hinv _; exact ⟨hinv, by simp [runCalls]⟩
  | cons c cs ih =>
    intro st hinv hall
    have hstep := applyCall_score_bounds cfg st c hw hinv (hall c (by simp))
    have hrest := ih (applyCall cfg st c).1 hstep.1
      (fun c' hc' => hall c' (by simp [hc']))
    simp only [runCalls]
    refine ⟨hrest.1, ?_⟩
    intro g hg
    rw [List.mem_append] at hg
    rcases hg with hg | hg
    · exact hstep.2 g hg
    · exact hrest.2 g hg

/-- C3 counterexample: the grade-bound invariant fails on the code — a
raw-score set of `"200"` (wire range is 0-100) publishes grade value 2 with
weight 1, and with weight `1/2` a raw-score set of `"100"` publishes 1. -/
theorem C3_counterexample :
    (runCalls cfg0 initialState [("cmi.core.score.raw", "200")]).2
      = [((2 : ℚ), (1 : ℚ))] ∧
    ¬((2 : ℚ) ≤ cfg0.weight) ∧
    (runCalls { cfg0 with weight := 1 / 2 } initialState
      [("cmi.core.score.raw", "100")]).2 = [((1 : ℚ), (1 / 2 : ℚ))] ∧
    ¬((1 : ℚ) ≤ ({ cfg0 with weight := 1 / 2 } : Config).weight) := by
  with_unfolding_all decide

/-- C3 amended: every grade event published over a session started from the
default state has value between 0 and `weight`, provided `weight ≥ 1` and
every raw-score set call that parses does so to a value in the wire range
0-100 (the code itself never clamps out-of-range scores or small weights). -/
theorem C3_grade_bounds (cfg : Config) (calls : List (String × String))
    (hw : 1 ≤ cfg.weight) (hall : ∀ c ∈ calls, rawOk c) :
    ∀ g ∈ (runCalls cfg initialState calls).2, 0 ≤ g.1 ∧ g.1 ≤ cfg.weight :=
  (runCalls_score_bounds cfg hw calls initialState
    ⟨le_refl 0, by norm_num [initialState]⟩ hall).2

/-- C3 witness: the single grade event of an in-range raw-score set lies
within the bounds. -/
theorem C3_witness :
    0 ≤ round2 ((87 : ℚ) / 100) ∧ round2 ((87 : ℚ) / 100) ≤ cfg0.weight := by
  have hmem : (round2 ((87 : ℚ) / 100), cfg0.weight) ∈
      (runCalls cfg0 initialState [("cmi.core.score.raw", "87")]).2 := by
    with_unfolding_all decide
  have hall : ∀ c ∈ [(("cmi.core.score.raw" : String), ("87" : String))], rawOk c := by
    intro c hc
    rw [List.mem_singleton] at hc
    subst hc
    intro _ q hq
    rw [show pyFloat "87" = some 87 from by with_unfolding_all decide] at hq
    injection hq with hq
    subst hq
    norm_num
  have h := C3_grade_bounds cfg0 [("cmi.core.score.raw", "87")] (by norm_num [cfg0])
    hall (round2 ((87 : ℚ) / 100), cfg0.weight) hmem
  simpa using h
